import Mathlib

/-!
# PR review reminder: store operations and the escalation tick

A shallow embedding of `db.go`, `reminder.go` and the reaction handler of
`main.go`.

* Go strings are modelled by `String`; `strings.Split` is only ever called with the
  one-byte separator `","`, so it is modelled for a one-character separator.
* The SQLite table `pr_reviews` is a list of rows in rowid order, together with the
  AUTOINCREMENT counter; the table `workspaces` is a list of rows.  Statements that the
  program binds with Go strings never store NULL, so only `approved_at` and
  `approved_by` are nullable in the model.  I/O failures of the database driver are not
  modelled: a statement fails only for the reasons SQL gives it (no row to scan).
* `time.Time` is a count of nanoseconds, `time.Duration` a count of nanoseconds in the
  int64 range, and `time.Time.Sub` saturates as the Go library does.
* The Slack client is a pair of functions (`GetReactions`, `PostMessage`) whose answers
  are parameters of the model; what the program sends and logs is recorded as a list of
  events.
-/

namespace PRReminder

/-! ## Go library functions -/

/-- The pieces of a character list cut at every occurrence of `sep`: the first piece and
the list of the following ones. -/
def splitChars (sep : Char) : List Char → List Char × List (List Char)
  | [] => ([], [])
  | c :: cs =>
    if c = sep then ([], (splitChars sep cs).1 :: (splitChars sep cs).2)
    else (c :: (splitChars sep cs).1, (splitChars sep cs).2)

/-- All pieces of a character list cut at every occurrence of `sep`; never empty. -/
def pieces (sep : Char) (cs : List Char) : List (List Char) :=
  (splitChars sep cs).1 :: (splitChars sep cs).2

/-- Go `strings.Split(s, sep)` for a one-character separator: the substrings between the
occurrences of `sep`; a string without `sep` (the empty string included) gives one piece. -/
def stringsSplit (s : String) (sep : Char) : List String :=
  (pieces sep s.data).map String.mk

/-- The loop of Go `strings.Join` over `elems[1:]`: each element preceded by `sep`. -/
def joinRest (sep : String) : List String → String
  | [] => ""
  | s :: rest => sep ++ s ++ joinRest sep rest

/-- Go `strings.Join(elems, sep)`. -/
def stringsJoin : List String → String → String
  | [], _ => ""
  | e :: rest, sep => e ++ joinRest sep rest

/-- The separator of the stored reviewer list. -/
def comma : Char := ','

/-- Nanoseconds in a second (`time.Second`). -/
def second : Int := 1000000000

/-- Nanoseconds in a minute (`time.Minute`). -/
def minute : Int := 60 * second

/-- Nanoseconds in an hour (`time.Hour`). -/
def hour : Int := 60 * minute

/-- The largest `time.Duration` (int64). -/
def maxDuration : Int := 9223372036854775807

/-- The smallest `time.Duration` (int64). -/
def minDuration : Int := -9223372036854775808

/-- Go `t.Sub(u)`: the difference in nanoseconds, saturated to the int64 range. -/
def timeSub (t u : Int) : Int :=
  if t - u > maxDuration then maxDuration
  else if t - u < minDuration then minDuration
  else t - u

/-- Go `time.Since(t)` when the clock reads `now`. -/
def timeSince (now t : Int) : Int := timeSub now t

deriving instance DecidableEq for Except

/-- The error of `database/sql` for a `QueryRow(...).Scan` without a row. -/
def errNoRows : String := "sql: no rows in result set"

/-! ## Data model (`db.go`) -/

/-- Go struct `PRReview`. -/
structure PRReview where
  ID : Int
  PRUrl : String
  Description : String
  ChannelID : String
  MessageTS : String
  Reviewers : List String
  Status : String
  TeamId : String
  CreatedAt : Int
  ApprovedAt : Option Int
  ApprovedBy : Option String
  deriving DecidableEq, Repr

/-- Go struct `Workspace`. -/
structure Workspace where
  TeamID : String
  TeamName : String
  AccessToken : String
  BotUserID : String
  deriving DecidableEq, Repr

/-- One row of table `pr_reviews` (`prReviewTableSQL`). -/
structure Row where
  id : Int
  pr_url : String
  description : String
  channel_id : String
  message_ts : String
  reviewers : String
  status : String
  team_id : String
  created_at : Int
  approved_at : Option Int
  approved_by : Option String
  deriving DecidableEq, Repr

/-- One row of table `workspaces` (`workspaceTableSQL`). -/
structure WorkspaceRow where
  id : Int
  team_id : String
  team_name : String
  access_token : String
  bot_user_id : String
  installed_at : Int
  deriving DecidableEq, Repr

/-- The database: both tables and their AUTOINCREMENT counters. -/
structure DB where
  pr_reviews : List Row
  pr_reviews_seq : Int
  workspaces : List WorkspaceRow
  workspaces_seq : Int
  deriving DecidableEq, Repr

/-- The database right after `initDB` on a fresh file. -/
def initDB : DB :=
  { pr_reviews := [], pr_reviews_seq := 0, workspaces := [], workspaces_seq := 0 }

/-- Go `storePRReview`: one INSERT; `status` is bound to "pending", `created_at` takes
its default `CURRENT_TIMESTAMP`, `approved_at` and `approved_by` stay NULL. -/
def storePRReview (currentTimestamp : Int) (db : DB) (pr : PRReview) : Except String DB :=
  let reviewers := stringsJoin pr.Reviewers ","
  .ok { db with
    pr_reviews := db.pr_reviews ++
      [{ id := db.pr_reviews_seq + 1
         pr_url := pr.PRUrl
         description := pr.Description
         channel_id := pr.ChannelID
         message_ts := pr.MessageTS
         reviewers := reviewers
         status := "pending"
         team_id := pr.TeamId
         created_at := currentTimestamp
         approved_at := none
         approved_by := none }]
    pr_reviews_seq := db.pr_reviews_seq + 1 }

/-- The UPDATE of `updatePRStatus` on one row. -/
def updateStatusRow (currentTimestamp : Int) (messageTS status approvedBy : String)
    (r : Row) : Row :=
  if r.message_ts = messageTS then
    { r with
      status := status
      approved_at := if status = "approved" then some currentTimestamp else none
      approved_by := if status = "approved" then some approvedBy else none }
  else r

/-- Go `updatePRStatus`: one UPDATE over the rows with the given `message_ts`; the error
of `Exec` is returned, and an UPDATE that matches no row is not an error. -/
def updatePRStatus (currentTimestamp : Int) (db : DB) (messageTS status approvedBy : String) :
    Except String DB :=
  .ok { db with
    pr_reviews := db.pr_reviews.map (updateStatusRow currentTimestamp messageTS status approvedBy) }

/-- The UPDATE of `addReviewer` on one row. -/
def setReviewersRow (messageTS newReviewersStr : String) (r : Row) : Row :=
  if r.message_ts = messageTS then { r with reviewers := newReviewersStr } else r

/-- Go `addReviewer`: read the reviewers of the first row with the given `message_ts`
(`sql.ErrNoRows` when there is none), return when the reviewer is among the comma-split
pieces, otherwise append it and UPDATE the rows with that `message_ts`. -/
def addReviewer (db : DB) (messageTS reviewerID : String) : Except String DB :=
  match db.pr_reviews.find? (fun r => r.message_ts = messageTS) with
  | none => .error errNoRows
  | some row =>
    let reviewers := stringsSplit row.reviewers comma
    if reviewerID ∈ reviewers then .ok db
    else
      let newReviewersStr := stringsJoin (reviewers ++ [reviewerID]) ","
      .ok { db with pr_reviews := db.pr_reviews.map (setReviewersRow messageTS newReviewersStr) }

/-- The `rows.Scan` of `getPendingPRs` on one row; `ApprovedAt` and `ApprovedBy` are not
selected and keep their zero value. -/
def scanPending (r : Row) : PRReview :=
  { ID := r.id
    PRUrl := r.pr_url
    Description := r.description
    ChannelID := r.channel_id
    MessageTS := r.message_ts
    Reviewers := stringsSplit r.reviewers comma
    Status := r.status
    TeamId := r.team_id
    CreatedAt := r.created_at
    ApprovedAt := none
    ApprovedBy := none }

/-- Go `getPendingPRs`: the rows with `status = 'pending'`, in rowid order. -/
def getPendingPRs (db : DB) : Except String (List PRReview) :=
  .ok ((db.pr_reviews.filter (fun r => r.status = "pending")).map scanPending)

/-- The ON CONFLICT branch of `saveWorkspace` on one row. -/
def upsertWorkspaceRow (ws : Workspace) (r : WorkspaceRow) : WorkspaceRow :=
  if r.team_id = ws.TeamID then
    { r with team_name := ws.TeamName, access_token := ws.AccessToken, bot_user_id := ws.BotUserID }
  else r

/-- Go `saveWorkspace`: insert the workspace, or update the row of the same `team_id`. -/
def saveWorkspace (currentTimestamp : Int) (db : DB) (ws : Workspace) : Except String DB :=
  if db.workspaces.any (fun r => r.team_id = ws.TeamID) then
    .ok { db with workspaces := db.workspaces.map (upsertWorkspaceRow ws) }
  else
    .ok { db with
      workspaces := db.workspaces ++
        [{ id := db.workspaces_seq + 1
           team_id := ws.TeamID
           team_name := ws.TeamName
           access_token := ws.AccessToken
           bot_user_id := ws.BotUserID
           installed_at := currentTimestamp }]
      workspaces_seq := db.workspaces_seq + 1 }

/-- Go `getWorkspaceToken`: the access token of the team, `sql.ErrNoRows` without a row. -/
def getWorkspaceToken (db : DB) (teamID : String) : Except String String :=
  match db.workspaces.find? (fun r => r.team_id = teamID) with
  | none => .error errNoRows
  | some r => .ok r.access_token

/-! ## The Slack client and the observable effects -/

/-- Slack `ItemReaction`: one reaction name with the users who attached it. -/
structure ItemReaction where
  Name : String
  Count : Int
  Users : List String
  deriving DecidableEq, Repr

/-- The answers of the Slack API, per access token: `GetReactions` on a message
(channel, timestamp) and `PostMessage` (channel, text, thread timestamp), which returns
the timestamp of the new message. -/
structure Slack where
  getReactions : String → String → String → Except String (List ItemReaction)
  postMessage : String → String → String → String → Except String String

/-- What the program does to the outside: a log line, or a message sent with
`PostMessage` through the client of `token`, as a reply in the thread `threadTS`. -/
inductive Event where
  | log (msg : String)
  | post (token channel text threadTS : String)
  deriving DecidableEq, Repr

/-- Go `getApi`: the Slack client of the team (its access token), with the log line
written when the token lookup fails. -/
def getApi (db : DB) (teamId : String) : List Event × Except String String :=
  match getWorkspaceToken db teamId with
  | .error err => ([Event.log ("Error getting workspace token: " ++ err)], .error err)
  | .ok token => ([], .ok token)

/-! ## The reminder system (`reminder.go`) -/

/-- Go struct `ReminderSetup`, without the scheduler and the cron job, which only fix
when the tick runs. -/
structure ReminderSetup where
  startReminder : Int
  channelReminder : Int
  deriving DecidableEq, Repr

/-- Go `createProdSetup`: one day, three days. -/
def createProdSetup : ReminderSetup :=
  { startReminder := 24 * hour, channelReminder := 3 * 24 * hour }

/-- Go `createTestSetup`: ten seconds, twenty seconds. -/
def createTestSetup : ReminderSetup :=
  { startReminder := 10 * second, channelReminder := 20 * second }

/-- The setup `startReminderSystem` chooses from the environment variable `GO_ENV`. -/
def reminderSetup (goEnv : String) : ReminderSetup :=
  if goEnv = "prod" then createProdSetup else createTestSetup

/-- The mention of one user, `fmt.Sprintf("<@%s>", user)`. -/
def mention (user : String) : String := "<@" ++ user ++ ">"

/-- The loop over the reactions: the mentions of the users of every reaction named
"eyes", in order. -/
def eyesMentions : List ItemReaction → List String
  | [] => []
  | reaction :: rest =>
    (if reaction.Name = "eyes" then reaction.Users.map mention else []) ++ eyesMentions rest

/-- The `mentionUsers` of the tick below the channel threshold: the users who reacted
with eyes, and the original reviewers when there is none. -/
def directMentions (pr : PRReview) (reactions : List ItemReaction) : List String :=
  if (eyesMentions reactions).length = 0 then pr.Reviewers.map mention
  else eyesMentions reactions

/-- The first lines of every reminder: the header and the link to the PR. -/
def reminderHeader (pr : PRReview) : String :=
  "🔔 *Reminder:* PR needs review\n<" ++ pr.PRUrl ++ "|Open PR>\n"

/-- The reminder message of the tick for the given `mentionUsers`. -/
def reminderText (setup : ReminderSetup) (sinceCreation : Int) (pr : PRReview)
    (mentionUsers : List String) : String :=
  if mentionUsers.length > 0 then
    reminderHeader pr ++ ("Hey " ++ stringsJoin mentionUsers ", " ++ "! ") ++
      (if sinceCreation ≥ setup.channelReminder then
        "This PR has been waiting for review for 3+ days."
      else "This PR is awaiting your review.")
  else reminderHeader pr

/-- How one iteration of the loop over the pending reviews ends: the loop goes on with
the next review, or the whole job returns. -/
inductive Flow where
  | next
  | stop
  deriving DecidableEq, Repr

/-- The end of one iteration: the reminder is posted as a thread reply, and a failure
of `PostMessage` is logged. -/
def postReminder (slack : Slack) (api : String) (pr : PRReview) (text : String) :
    List Event × Flow :=
  match slack.postMessage api pr.ChannelID text pr.MessageTS with
  | .error err =>
    ([Event.post api pr.ChannelID text pr.MessageTS,
      Event.log ("Error posting reminder: " ++ err)], Flow.next)
  | .ok _ => ([Event.post api pr.ChannelID text pr.MessageTS], Flow.next)

/-- One iteration of the loop of the job in `startReminderSystem`, for one pending
review: its events and how it ends. -/
def remindPR (setup : ReminderSetup) (db : DB) (slack : Slack) (now : Int) (pr : PRReview) :
    List Event × Flow :=
  let sinceCreation := timeSince now pr.CreatedAt
  if sinceCreation < setup.startReminder then ([], Flow.next)
  else
    match getApi db pr.TeamId with
    | (logs, .error err) =>
      (logs ++ [Event.log ("Error getting API in reminder system: " ++ err)], Flow.stop)
    | (_, .ok api) =>
      if sinceCreation ≥ setup.channelReminder then
        postReminder slack api pr (reminderText setup sinceCreation pr ["<!channel>"])
      else
        match slack.getReactions api pr.ChannelID pr.MessageTS with
        | .error err => ([Event.log ("Error getting reactions: " ++ err)], Flow.next)
        | .ok reactions =>
          postReminder slack api pr
            (reminderText setup sinceCreation pr (directMentions pr reactions))

/-- The loop of the job over the pending reviews. -/
def remindLoop (setup : ReminderSetup) (db : DB) (slack : Slack) (now : Int) :
    List PRReview → List Event
  | [] => []
  | pr :: rest =>
    match remindPR setup db slack now pr with
    | (events, Flow.next) => events ++ remindLoop setup db slack now rest
    | (events, Flow.stop) => events

/-- The job that `startReminderSystem` hands to the scheduler, run once at time `now`:
everything it logs and posts. -/
def reminderTick (setup : ReminderSetup) (db : DB) (slack : Slack) (now : Int) : List Event :=
  Event.log "Running reminder system" ::
    (match getPendingPRs db with
     | .error err => [Event.log ("Error getting pending PRs: " ++ err)]
     | .ok prs => remindLoop setup db slack now prs)

/-- The texts of the messages among the events, in the order they were posted. -/
def postedTexts (events : List Event) : List String :=
  events.filterMap (fun e => match e with
    | Event.post _ _ text _ => some text
    | Event.log _ => none)

/-! ## The reaction handler (`handleEvents` in `main.go`) -/

/-- Slack `ReactionAddedEvent`, with the fields the handler reads. -/
structure ReactionAddedEvent where
  User : String
  Reaction : String
  ItemChannel : String
  ItemTimestamp : String
  deriving DecidableEq, Repr

/-- Slack `User`, with the fields the handler reads. -/
structure SlackUser where
  ID : String
  RealName : String
  deriving DecidableEq, Repr

/-- The `switch reaction.Reaction` of `handleEvents`, once the client `api` and the
user who reacted are known (`getApi` and `GetUserInfo` succeeded): the new database and
the events. -/
def handleReaction (currentTimestamp : Int) (db : DB) (slack : Slack) (api : String)
    (reaction : ReactionAddedEvent) (user : SlackUser) : DB × List Event :=
  if reaction.Reaction = "eyes" then
    match addReviewer db reaction.ItemTimestamp user.ID with
    | .error err => (db, [Event.log ("Error updating reviewers: " ++ err)])
    | .ok db1 => (db1, [Event.log (user.RealName ++ " is reviewing the PR")])
  else if reaction.Reaction = "white_check_mark" then
    match updatePRStatus currentTimestamp db reaction.ItemTimestamp "approved" user.ID with
    | .error err => (db, [Event.log ("Error updating PR status: " ++ err)])
    | .ok db1 =>
      let text := "✅ PR approved by " ++ user.RealName
      (db1,
        [Event.post api reaction.ItemChannel text reaction.ItemTimestamp] ++
        (match slack.postMessage api reaction.ItemChannel text reaction.ItemTimestamp with
         | .error err => [Event.log ("Error posting approval message: " ++ err)]
         | .ok _ => []) ++
        [Event.log (user.RealName ++ " approved the PR")])
  else (db, [])

/-! ## Sequences of store operations -/

/-- One call of a function of `db.go` that writes table `pr_reviews`, with its arguments
and, where the statement uses it, the value of `CURRENT_TIMESTAMP`. -/
inductive StoreOp where
  | store (currentTimestamp : Int) (pr : PRReview)
  | addReviewer (messageTS reviewerID : String)
  | updateStatus (currentTimestamp : Int) (messageTS status approvedBy : String)
  deriving DecidableEq, Repr

/-- The result of one call. -/
def applyOp (db : DB) : StoreOp → Except String DB
  | StoreOp.store currentTimestamp pr => storePRReview currentTimestamp db pr
  | StoreOp.addReviewer messageTS reviewerID => addReviewer db messageTS reviewerID
  | StoreOp.updateStatus currentTimestamp messageTS status approvedBy =>
    updatePRStatus currentTimestamp db messageTS status approvedBy

/-- The database after a sequence of calls; a call that returns an error wrote nothing. -/
def runOps (db : DB) : List StoreOp → DB
  | [] => db
  | op :: ops =>
    match applyOp db op with
    | .ok db1 => runOps db1 ops
    | .error _ => runOps db ops

/-! ## Properties the claims speak about -/

/-- Approval completeness of one row: the status is "approved" exactly when both
`approved_at` and `approved_by` are present, and otherwise both are absent. -/
def approvalComplete (r : Row) : Prop :=
  (r.status = "approved" ↔ (r.approved_at.isSome = true ∧ r.approved_by.isSome = true)) ∧
  (r.status ≠ "approved" → r.approved_at = none ∧ r.approved_by = none)

/-- The users who attached the reaction "eyes", in the order of the answer of
`GetReactions`. -/
def engagedUsers (reactions : List ItemReaction) : List String :=
  ((reactions.filter (fun reaction => reaction.Name = "eyes")).map
    (fun reaction => reaction.Users)).flatten

/-- The recipients of a reminder below the channel threshold, in the words of the
specification: the engaged users when there is one, else the assigned reviewers. -/
def directRecipients (pr : PRReview) (reactions : List ItemReaction) : List String :=
  if engagedUsers reactions = [] then pr.Reviewers else engagedUsers reactions

/-- The reviewer list of a row, as read back by `getPendingPRs` and `addReviewer`. -/
def reviewersOf (r : Row) : List String := stringsSplit r.reviewers comma

/-- Two rows are the same review with the same reviewer set: they agree on every
column but `reviewers`, and the comma-split lists have the same members. -/
def sameReviewerSet (r1 r2 : Row) : Prop :=
  { r2 with reviewers := r1.reviewers } = r1 ∧ ∀ u, u ∈ reviewersOf r1 ↔ u ∈ reviewersOf r2

/-- The number of rows of `pr_reviews` with the given `message_ts`. -/
def countKey (db : DB) (messageTS : String) : Nat :=
  db.pr_reviews.countP (fun r => r.message_ts = messageTS)

/-! ## Example inputs -/

/-- The row of table `workspaces` for team "T1". -/
def exampleWorkspace : Workspace :=
  { TeamID := "T1", TeamName := "Team One", AccessToken := "xoxb-1", BotUserID := "B1" }

/-- A review request for the reviewers A and B, as `handleInteractivity` builds it. -/
def exampleReview : PRReview :=
  { ID := 0
    PRUrl := "https://example.com/pr/1"
    Description := "fix"
    ChannelID := "C1"
    MessageTS := "1700000000.000100"
    Reviewers := ["A", "B"]
    Status := "pending"
    TeamId := "T1"
    CreatedAt := 0
    ApprovedAt := none
    ApprovedBy := none }

/-- The database with the workspace of team "T1" installed and no review. -/
def workspaceDB : DB :=
  match saveWorkspace 0 initDB exampleWorkspace with
  | .ok db => db
  | .error _ => initDB

/-- The database after `exampleReview` was stored at time 0. -/
def exampleDB : DB := runOps workspaceDB [StoreOp.store 0 exampleReview]

/-- The review `exampleReview` as `getPendingPRs` reads it back from `exampleDB`. -/
def examplePending : PRReview := { exampleReview with ID := 1 }

/-- A Slack workspace where nobody reacted and every message is accepted. -/
def quietSlack : Slack :=
  { getReactions := fun _ _ _ => .ok []
    postMessage := fun _ _ _ _ => .ok "1700000001.000200" }

/-- A Slack workspace where user C attached "eyes" and user D a thumbs-up to every
message. -/
def eyesSlack : Slack :=
  { getReactions := fun _ _ _ =>
      .ok [{ Name := "thumbsup", Count := 1, Users := ["D"] },
           { Name := "eyes", Count := 1, Users := ["C"] }]
    postMessage := fun _ _ _ _ => .ok "1700000001.000200" }

/-- A Slack workspace whose `GetReactions` fails. -/
def failingSlack : Slack :=
  { getReactions := fun _ _ _ => .error "ratelimited"
    postMessage := fun _ _ _ _ => .ok "1700000001.000200" }

/-- The database `exampleDB` after user "U1" approved the review at time 100. -/
def approvedDB : DB :=
  runOps exampleDB [StoreOp.updateStatus 100 "1700000000.000100" "approved" "U1"]

/-- A review request of team "T0", which has no row in table `workspaces`. -/
def orphanReview : PRReview :=
  { exampleReview with
    PRUrl := "https://example.com/pr/0", MessageTS := "1699999999.000100", TeamId := "T0" }

/-- The database with two pending reviews stored at time 0: first the one of team "T0",
then `exampleReview` of team "T1". -/
def twoTeamsDB : DB :=
  runOps workspaceDB [StoreOp.store 0 orphanReview, StoreOp.store 0 exampleReview]

/-- The database after a review request without any reviewer was stored at time 0. -/
def unassignedDB : DB :=
  runOps workspaceDB [StoreOp.store 0 { exampleReview with Reviewers := [] }]

/-! ## Lemmas on the Go library functions -/

/-- A split has at least one piece. -/
theorem pieces_ne_nil (sep : Char) (cs : List Char) : pieces sep cs ≠ [] := by
  simp [pieces]

/-- The empty list splits into one empty piece. -/
theorem pieces_nil (sep : Char) : pieces sep [] = [[]] := rfl

/-- A leading separator opens an empty first piece. -/
theorem pieces_cons_sep (sep : Char) (cs : List Char) :
    pieces sep (sep :: cs) = [] :: pieces sep cs := by
  simp [pieces, splitChars]

/-- Another leading character joins the first piece. -/
theorem pieces_cons_ne (sep c : Char) (cs : List Char) (h : c ≠ sep) :
    pieces sep (c :: cs) = (c :: (splitChars sep cs).1) :: (splitChars sep cs).2 := by
  simp [pieces, splitChars, h]

/-- Splitting distributes over a separator between two lists. -/
theorem pieces_append_sep (sep : Char) (l1 l2 : List Char) :
    pieces sep (l1 ++ sep :: l2) = pieces sep l1 ++ pieces sep l2 := by
  induction l1 with
  | nil => simp [pieces_cons_sep, pieces_nil]
  | cons c cs ih =>
    by_cases h : c = sep
    · subst h
      simp [pieces_cons_sep, ih]
    · simp only [List.cons_append, pieces_cons_ne _ _ _ h]
      simp only [pieces, List.cons_append, List.cons.injEq] at ih
      simp [ih.1, ih.2, pieces]

/-- No piece of a split contains the separator. -/
theorem pieces_no_sep (sep : Char) (cs : List Char) : ∀ p ∈ pieces sep cs, sep ∉ p := by
  induction cs with
  | nil => simp [pieces_nil]
  | cons c cs ih =>
    by_cases h : c = sep
    · subst h
      simp only [pieces_cons_sep, List.mem_cons]
      rintro p (rfl | hp)
      · simp
      · exact ih p hp
    · simp only [pieces_cons_ne _ _ _ h, List.mem_cons]
      rintro p (rfl | hp)
      · simp only [List.mem_cons, not_or]
        exact ⟨fun e => h e.symm, ih _ (by simp [pieces])⟩
      · exact ih p (by simp [pieces, hp])

/-- A list without the separator is its own single piece. -/
theorem pieces_of_no_sep (sep : Char) (cs : List Char) (h : sep ∉ cs) : pieces sep cs = [cs] := by
  induction cs with
  | nil => rfl
  | cons c cs ih =>
    simp only [List.mem_cons, not_or] at h
    have hc : c ≠ sep := fun e => h.1 e.symm
    have := ih h.2
    simp only [pieces, List.cons.injEq] at this
    simp [pieces_cons_ne _ _ _ hc, this.1, this.2]

/-- Splitting `s,u` gives the pieces of `s` followed by the pieces of `u`. -/
theorem stringsSplit_append_comma (s u : String) :
    stringsSplit (s ++ "," ++ u) comma = stringsSplit s comma ++ stringsSplit u comma := by
  have : (s ++ "," ++ u).data = s.data ++ comma :: u.data := by
    simp [String.data_append, comma]
  simp [stringsSplit, this, pieces_append_sep]

/-- A string without a comma splits into itself. -/
theorem stringsSplit_of_no_comma (u : String) (h : comma ∉ u.data) :
    stringsSplit u comma = [u] := by
  simp [stringsSplit, pieces_of_no_sep _ _ h]

/-- The pieces of `strings.Split` on a comma contain no comma. -/
theorem no_comma_of_mem_stringsSplit (s u : String) (h : u ∈ stringsSplit s comma) :
    comma ∉ u.data := by
  simp only [stringsSplit, List.mem_map] at h
  obtain ⟨p, hp, rfl⟩ := h
  exact pieces_no_sep _ _ p hp

/-- The loop of `strings.Join` over a concatenation. -/
theorem joinRest_append (sep : String) (xs ys : List String) :
    joinRest sep (xs ++ ys) = joinRest sep xs ++ joinRest sep ys := by
  induction xs with
  | nil => simp [joinRest]
  | cons x xs ih => simp [joinRest, ih, String.append_assoc]

/-- Joining a non-empty list extended by one element. -/
theorem stringsJoin_append_singleton (xs : List String) (u sep : String) (h : xs ≠ []) :
    stringsJoin (xs ++ [u]) sep = stringsJoin xs sep ++ sep ++ u := by
  cases xs with
  | nil => exact absurd rfl h
  | cons x xs => simp [stringsJoin, joinRest_append, joinRest, String.append_assoc]

/-- Joining the pieces of a character list with commas gives the list back. -/
theorem joinRest_pieces_data (cs : List Char) :
    (splitChars comma cs).1 ++ (joinRest "," ((splitChars comma cs).2.map String.mk)).data = cs := by
  induction cs with
  | nil => rfl
  | cons c cs ih =>
    by_cases h : c = comma
    · subst h
      simp only [splitChars, if_true, List.map_cons, joinRest, String.data_append, List.nil_append]
      rw [List.append_assoc, ih]
      rfl
    · simp [splitChars, h, ih]

/-- Joining the comma-split of a string gives the string back. -/
theorem stringsJoin_stringsSplit (s : String) : stringsJoin (stringsSplit s comma) "," = s := by
  apply String.ext
  simp only [stringsSplit, pieces, List.map_cons, stringsJoin, String.data_append]
  exact joinRest_pieces_data s.data

/-! ## Lemmas on the reminder loop -/

/-- Go `strings.Split` never returns an empty slice for a one-character separator. -/
theorem stringsSplit_ne_nil (s : String) (sep : Char) : stringsSplit s sep ≠ [] := by
  simp [stringsSplit, pieces]

/-- Every review read by `getPendingPRs` has at least one entry in `Reviewers`. -/
theorem reviewers_ne_nil_of_pending {db : DB} {prs : List PRReview}
    (h : getPendingPRs db = .ok prs) {pr : PRReview} (hpr : pr ∈ prs) : pr.Reviewers ≠ [] := by
  simp only [getPendingPRs, Except.ok.injEq] at h
  subst h
  simp only [List.mem_map] at hpr
  obtain ⟨r, _, rfl⟩ := hpr
  exact stringsSplit_ne_nil _ _

/-- Posting a reminder yields the message, possibly a log line, and lets the loop go on. -/
theorem postedTexts_postReminder (slack : Slack) (api : String) (pr : PRReview) (text : String) :
    ∃ logs, postReminder slack api pr text =
        (Event.post api pr.ChannelID text pr.MessageTS :: logs, Flow.next) ∧
      postedTexts logs = [] := by
  unfold postReminder
  cases slack.postMessage api pr.ChannelID text pr.MessageTS with
  | error err => exact ⟨_, rfl, rfl⟩
  | ok ts => exact ⟨_, rfl, rfl⟩

/-- Below `startReminder` the iteration does nothing. -/
theorem remindPR_early (setup : ReminderSetup) (db : DB) (slack : Slack) (now : Int)
    (pr : PRReview) (h : timeSince now pr.CreatedAt < setup.startReminder) :
    remindPR setup db slack now pr = ([], Flow.next) := by
  simp [remindPR, h]

/-- A successful token lookup gives the client without a log line. -/
theorem getApi_ok {db : DB} {teamId token : String}
    (h : getWorkspaceToken db teamId = .ok token) : getApi db teamId = ([], .ok token) := by
  simp [getApi, h]

/-- The iteration from `channelReminder` on, when the token lookup succeeds. -/
theorem remindPR_channel (setup : ReminderSetup) (db : DB) (slack : Slack) (now : Int)
    (pr : PRReview) (token : String)
    (h1 : setup.startReminder ≤ timeSince now pr.CreatedAt)
    (h2 : setup.channelReminder ≤ timeSince now pr.CreatedAt)
    (htok : getWorkspaceToken db pr.TeamId = .ok token) :
    remindPR setup db slack now pr =
      postReminder slack token pr
        (reminderText setup (timeSince now pr.CreatedAt) pr ["<!channel>"]) := by
  simp [remindPR, not_lt.mpr h1, getApi_ok htok, h2]

/-- The iteration between the thresholds, when the token lookup and `GetReactions` succeed. -/
theorem remindPR_direct (setup : ReminderSetup) (db : DB) (slack : Slack) (now : Int)
    (pr : PRReview) (token : String) (reactions : List ItemReaction)
    (h1 : setup.startReminder ≤ timeSince now pr.CreatedAt)
    (h2 : timeSince now pr.CreatedAt < setup.channelReminder)
    (htok : getWorkspaceToken db pr.TeamId = .ok token)
    (hre : slack.getReactions token pr.ChannelID pr.MessageTS = .ok reactions) :
    remindPR setup db slack now pr =
      postReminder slack token pr
        (reminderText setup (timeSince now pr.CreatedAt) pr (directMentions pr reactions)) := by
  simp [remindPR, not_lt.mpr h1, getApi_ok htok, not_le.mpr h2, hre]

/-- The iteration between the thresholds, when `GetReactions` fails. -/
theorem remindPR_reactions_error (setup : ReminderSetup) (db : DB) (slack : Slack) (now : Int)
    (pr : PRReview) (token err : String)
    (h1 : setup.startReminder ≤ timeSince now pr.CreatedAt)
    (h2 : timeSince now pr.CreatedAt < setup.channelReminder)
    (htok : getWorkspaceToken db pr.TeamId = .ok token)
    (hre : slack.getReactions token pr.ChannelID pr.MessageTS = .error err) :
    remindPR setup db slack now pr =
      ([Event.log ("Error getting reactions: " ++ err)], Flow.next) := by
  simp [remindPR, not_lt.mpr h1, getApi_ok htok, not_le.mpr h2, hre]

/-- The iteration from `startReminder` on, when the token lookup fails. -/
theorem remindPR_no_token (setup : ReminderSetup) (db : DB) (slack : Slack) (now : Int)
    (pr : PRReview) (err : String)
    (h1 : setup.startReminder ≤ timeSince now pr.CreatedAt)
    (htok : getWorkspaceToken db pr.TeamId = .error err) :
    remindPR setup db slack now pr =
      ([Event.log ("Error getting workspace token: " ++ err),
        Event.log ("Error getting API in reminder system: " ++ err)], Flow.stop) := by
  simp [remindPR, not_lt.mpr h1, getApi, htok]

/-- An iteration lets the loop go on unless its token lookup is reached and fails. -/
theorem remindPR_next (setup : ReminderSetup) (db : DB) (slack : Slack) (now : Int)
    (pr : PRReview)
    (h : setup.startReminder ≤ timeSince now pr.CreatedAt →
      ∃ token, getWorkspaceToken db pr.TeamId = .ok token) :
    (remindPR setup db slack now pr).2 = Flow.next := by
  by_cases h1 : timeSince now pr.CreatedAt < setup.startReminder
  · rw [remindPR_early _ _ _ _ _ h1]
  · obtain ⟨token, htok⟩ := h (not_lt.mp h1)
    by_cases h2 : setup.channelReminder ≤ timeSince now pr.CreatedAt
    · rw [remindPR_channel _ _ _ _ _ token (not_lt.mp h1) h2 htok]
      obtain ⟨logs, hl, _⟩ := postedTexts_postReminder slack token pr
        (reminderText setup (timeSince now pr.CreatedAt) pr ["<!channel>"])
      rw [hl]
    · cases hre : slack.getReactions token pr.ChannelID pr.MessageTS with
      | error err =>
        rw [remindPR_reactions_error _ _ _ _ _ token err (not_lt.mp h1) (not_le.mp h2) htok hre]
      | ok reactions =>
        rw [remindPR_direct _ _ _ _ _ token reactions (not_lt.mp h1) (not_le.mp h2) htok hre]
        obtain ⟨logs, hl, _⟩ := postedTexts_postReminder slack token pr
          (reminderText setup (timeSince now pr.CreatedAt) pr (directMentions pr reactions))
        rw [hl]

/-- The loop after an iteration that goes on. -/
theorem remindLoop_cons_next (setup : ReminderSetup) (db : DB) (slack : Slack) (now : Int)
    (pr : PRReview) (rest : List PRReview)
    (h : (remindPR setup db slack now pr).2 = Flow.next) :
    remindLoop setup db slack now (pr :: rest) =
      (remindPR setup db slack now pr).1 ++ remindLoop setup db slack now rest := by
  rcases hp : remindPR setup db slack now pr with ⟨events, flow⟩
  rw [hp] at h
  simp only at h
  subst h
  simp [remindLoop, hp]

/-- The loop after an iteration that returns. -/
theorem remindLoop_cons_stop (setup : ReminderSetup) (db : DB) (slack : Slack) (now : Int)
    (pr : PRReview) (rest : List PRReview)
    (h : (remindPR setup db slack now pr).2 = Flow.stop) :
    remindLoop setup db slack now (pr :: rest) = (remindPR setup db slack now pr).1 := by
  rcases hp : remindPR setup db slack now pr with ⟨events, flow⟩
  rw [hp] at h
  simp only at h
  subst h
  simp [remindLoop, hp]

/-- The loop over a batch whose first part never returns. -/
theorem remindLoop_append (setup : ReminderSetup) (db : DB) (slack : Slack) (now : Int)
    (before rest : List PRReview)
    (h : ∀ p ∈ before, (remindPR setup db slack now p).2 = Flow.next) :
    remindLoop setup db slack now (before ++ rest) =
      remindLoop setup db slack now before ++ remindLoop setup db slack now rest := by
  induction before with
  | nil => simp [remindLoop]
  | cons p ps ih =>
    have hp := h p (List.mem_cons_self _ _)
    have hps : ∀ q ∈ ps, (remindPR setup db slack now q).2 = Flow.next :=
      fun q hq => h q (List.mem_cons_of_mem _ hq)
    rw [List.cons_append, remindLoop_cons_next _ _ _ _ _ _ hp,
      remindLoop_cons_next _ _ _ _ _ _ hp, ih hps, List.append_assoc]

/-- The loop returns at the first review whose token lookup is reached and fails: the
reviews after it produce no event, whatever they are. -/
theorem remindLoop_stops_at_missing_token (setup : ReminderSetup) (db : DB) (slack : Slack)
    (now : Int) (before : List PRReview) (pr : PRReview) (after : List PRReview) (err : String)
    (hbefore : ∀ p ∈ before, setup.startReminder ≤ timeSince now p.CreatedAt →
      ∃ token, getWorkspaceToken db p.TeamId = .ok token)
    (h1 : setup.startReminder ≤ timeSince now pr.CreatedAt)
    (htok : getWorkspaceToken db pr.TeamId = .error err) :
    remindLoop setup db slack now (before ++ pr :: after) =
      remindLoop setup db slack now before ++
        [Event.log ("Error getting workspace token: " ++ err),
         Event.log ("Error getting API in reminder system: " ++ err)] := by
  have hb : ∀ p ∈ before, (remindPR setup db slack now p).2 = Flow.next :=
    fun p hp => remindPR_next setup db slack now p (hbefore p hp)
  have h := remindPR_no_token setup db slack now pr err h1 htok
  rw [remindLoop_append _ _ _ _ _ _ hb, remindLoop_cons_stop _ _ _ _ _ _ (by rw [h]), h]

/-! ## The escalation tiers (C1, C2) -/

/-- The engaged users of a list of reactions, one reaction at a time. -/
theorem engagedUsers_cons (reaction : ItemReaction) (rest : List ItemReaction) :
    engagedUsers (reaction :: rest) =
      (if reaction.Name = "eyes" then reaction.Users else []) ++ engagedUsers rest := by
  by_cases h : reaction.Name = "eyes" <;> simp [engagedUsers, List.filter_cons, h]

/-- The loop over the reactions collects the mentions of the engaged users. -/
theorem eyesMentions_eq (reactions : List ItemReaction) :
    eyesMentions reactions = (engagedUsers reactions).map mention := by
  induction reactions with
  | nil => rfl
  | cons reaction rest ih =>
    rw [eyesMentions, engagedUsers_cons, ih]
    by_cases h : reaction.Name = "eyes" <;> simp [h]

/-- The mentions of the direct tier are the mentions of the recipients of the specification. -/
theorem directMentions_eq (pr : PRReview) (reactions : List ItemReaction) :
    directMentions pr reactions = (directRecipients pr reactions).map mention := by
  unfold directMentions directRecipients
  rw [eyesMentions_eq]
  by_cases h : engagedUsers reactions = [] <;> simp [h]

/-- The reminder text below `channelReminder`. -/
theorem reminderText_direct (setup : ReminderSetup) (sinceCreation : Int) (pr : PRReview)
    (users : List String) (h : sinceCreation < setup.channelReminder) :
    reminderText setup sinceCreation pr (users.map mention) =
      if users = [] then reminderHeader pr
      else reminderHeader pr ++ ("Hey " ++ stringsJoin (users.map mention) ", " ++ "! ") ++
        "This PR is awaiting your review." := by
  cases users with
  | nil => simp [reminderText]
  | cons u us => simp [reminderText, not_le.mpr h]

/-- The reminder text from `channelReminder` on. -/
theorem reminderText_channel (setup : ReminderSetup) (sinceCreation : Int) (pr : PRReview)
    (h : setup.channelReminder ≤ sinceCreation) :
    reminderText setup sinceCreation pr ["<!channel>"] =
      reminderHeader pr ++ ("Hey " ++ stringsJoin ["<!channel>"] ", " ++ "! ") ++
        "This PR has been waiting for review for 3+ days." := by
  simp [reminderText, h]

/-- A review with a reviewer always has a recipient. -/
theorem directRecipients_ne_nil (pr : PRReview) (reactions : List ItemReaction)
    (h : pr.Reviewers ≠ []) : directRecipients pr reactions ≠ [] := by
  unfold directRecipients
  by_cases he : engagedUsers reactions = [] <;> simp [he, h]

/-- C1. Escalation tiers of the reminder tick.  For thresholds `startReminder <
channelReminder` and a pending review `pr` read by `getPendingPRs` (with the reviews
`before` it in the batch finding their credentials), where the elapsed time is
`time.Since(pr.CreatedAt)`: (i) below `startReminder` the iteration posts and logs
nothing; (ii) from `startReminder` (inclusive) up to `channelReminder` (exclusive), when
the token lookup and `GetReactions` succeed, exactly one message is posted in the thread
of the review, greeting a non-empty list of individual `<@user>` mentions and ending in
"This PR is awaiting your review."; (iii) from `channelReminder` on (inclusive), when the
token lookup succeeds, exactly one message is posted whose mention list is the single
marker `<!channel>`; and the events of the iteration are part of the events of the tick. -/
theorem escalation_tier_boundaries
    (setup : ReminderSetup) (db : DB) (slack : Slack) (now : Int)
    (before : List PRReview) (pr : PRReview) (after : List PRReview)
    (hT : setup.startReminder < setup.channelReminder)
    (hprs : getPendingPRs db = .ok (before ++ pr :: after))
    (hbefore : ∀ p ∈ before, setup.startReminder ≤ timeSince now p.CreatedAt →
      ∃ token, getWorkspaceToken db p.TeamId = .ok token) :
    (timeSince now pr.CreatedAt < setup.startReminder →
      remindPR setup db slack now pr = ([], Flow.next)) ∧
    (∀ token reactions,
      setup.startReminder ≤ timeSince now pr.CreatedAt →
      timeSince now pr.CreatedAt < setup.channelReminder →
      getWorkspaceToken db pr.TeamId = .ok token →
      slack.getReactions token pr.ChannelID pr.MessageTS = .ok reactions →
      ∃ users logs, users ≠ [] ∧
        remindPR setup db slack now pr =
          (Event.post token pr.ChannelID
            (reminderHeader pr ++ ("Hey " ++ stringsJoin (users.map mention) ", " ++ "! ") ++
              "This PR is awaiting your review.") pr.MessageTS :: logs, Flow.next) ∧
        postedTexts logs = []) ∧
    (∀ token,
      setup.channelReminder ≤ timeSince now pr.CreatedAt →
      getWorkspaceToken db pr.TeamId = .ok token →
      ∃ logs,
        remindPR setup db slack now pr =
          (Event.post token pr.ChannelID
            (reminderHeader pr ++ ("Hey " ++ stringsJoin ["<!channel>"] ", " ++ "! ") ++
              "This PR has been waiting for review for 3+ days.") pr.MessageTS :: logs,
            Flow.next) ∧
        postedTexts logs = []) ∧
    ((timeSince now pr.CreatedAt < setup.startReminder ∨
        ∃ token, getWorkspaceToken db pr.TeamId = .ok token) →
      reminderTick setup db slack now =
        Event.log "Running reminder system" ::
          (remindLoop setup db slack now before ++ (remindPR setup db slack now pr).1 ++
            remindLoop setup db slack now after)) := by
  refine ⟨remindPR_early setup db slack now pr, ?_, ?_, ?_⟩
  · intro token reactions h1 h2 htok hre
    have hne : pr.Reviewers ≠ [] := reviewers_ne_nil_of_pending hprs (by simp)
    have hrec := directRecipients_ne_nil pr reactions hne
    obtain ⟨logs, hl, hp⟩ := postedTexts_postReminder slack token pr
      (reminderText setup (timeSince now pr.CreatedAt) pr (directMentions pr reactions))
    refine ⟨directRecipients pr reactions, logs, hrec, ?_, hp⟩
    rw [remindPR_direct setup db slack now pr token reactions h1 h2 htok hre, hl,
      directMentions_eq, reminderText_direct _ _ _ _ h2, if_neg hrec]
  · intro token h2 htok
    obtain ⟨logs, hl, hp⟩ := postedTexts_postReminder slack token pr
      (reminderText setup (timeSince now pr.CreatedAt) pr ["<!channel>"])
    refine ⟨logs, ?_, hp⟩
    rw [remindPR_channel setup db slack now pr token (le_trans (le_of_lt hT) h2) h2 htok, hl,
      reminderText_channel _ _ _ h2]
  · intro h
    have hnext : (remindPR setup db slack now pr).2 = Flow.next := by
      apply remindPR_next
      intro h1
      rcases h with h | h
      · exact absurd h (not_lt.mpr h1)
      · exact h
    have hb : ∀ p ∈ before, (remindPR setup db slack now p).2 = Flow.next :=
      fun p hp => remindPR_next setup db slack now p (hbefore p hp)
    simp only [reminderTick, hprs]
    rw [remindLoop_append _ _ _ _ _ _ hb, remindLoop_cons_next _ _ _ _ _ _ hnext,
      List.append_assoc]

/-- The production thresholds at their boundaries, on `exampleDB` (review created at
time 0): at 24h the tick posts a direct reminder to the assigned reviewers. -/
theorem escalation_tier_boundaries_witness :
    (createProdSetup.startReminder < createProdSetup.channelReminder ∧
      getPendingPRs exampleDB = .ok ([] ++ examplePending :: [])) ∧
    reminderTick createProdSetup exampleDB quietSlack (24 * hour) =
      Event.log "Running reminder system" ::
        (remindLoop createProdSetup exampleDB quietSlack (24 * hour) [] ++
          (remindPR createProdSetup exampleDB quietSlack (24 * hour) examplePending).1 ++
          remindLoop createProdSetup exampleDB quietSlack (24 * hour) []) :=
  ⟨⟨by decide, by decide⟩,
    (escalation_tier_boundaries createProdSetup exampleDB quietSlack (24 * hour) []
      examplePending [] (by decide) (by decide) (by simp)).2.2.2
      (Or.inr ⟨"xoxb-1", by decide⟩)⟩

/-- The boundary cases of the production setup (24h and 72h) on `exampleDB`, whose
review was created at time 0: nothing at 23h59m, a direct reminder at 24h and at 71h59m,
a channel reminder at 72h. -/
theorem prod_boundary_examples :
    postedTexts (reminderTick createProdSetup exampleDB quietSlack (24 * hour - minute)) = [] ∧
    postedTexts (reminderTick createProdSetup exampleDB quietSlack (24 * hour)) =
      ["🔔 *Reminder:* PR needs review\n<https://example.com/pr/1|Open PR>\nHey <@A>, <@B>! This PR is awaiting your review."] ∧
    postedTexts (reminderTick createProdSetup exampleDB quietSlack (72 * hour - minute)) =
      ["🔔 *Reminder:* PR needs review\n<https://example.com/pr/1|Open PR>\nHey <@A>, <@B>! This PR is awaiting your review."] ∧
    postedTexts (reminderTick createProdSetup exampleDB quietSlack (72 * hour)) =
      ["🔔 *Reminder:* PR needs review\n<https://example.com/pr/1|Open PR>\nHey <!channel>! This PR has been waiting for review for 3+ days."] := by
  decide

/-- C2. Engagement fallback in the direct tier.  For a pending review with
`startReminder ≤ elapsed < channelReminder` whose token lookup and `GetReactions`
succeed, exactly one message is posted, and it is addressed to the recipients of the
specification: the users who attached "eyes" when there is one, otherwise the reviewers
of the review.  The text greets exactly the mentions of these recipients (and is the bare
header when there is no recipient at all). -/
theorem engagement_fallback
    (setup : ReminderSetup) (db : DB) (slack : Slack) (now : Int) (pr : PRReview)
    (token : String) (reactions : List ItemReaction)
    (h1 : setup.startReminder ≤ timeSince now pr.CreatedAt)
    (h2 : timeSince now pr.CreatedAt < setup.channelReminder)
    (htok : getWorkspaceToken db pr.TeamId = .ok token)
    (hre : slack.getReactions token pr.ChannelID pr.MessageTS = .ok reactions) :
    ∃ logs,
      remindPR setup db slack now pr =
        (Event.post token pr.ChannelID
          (if (if engagedUsers reactions = [] then pr.Reviewers else engagedUsers reactions) = []
           then reminderHeader pr
           else reminderHeader pr ++
             ("Hey " ++ stringsJoin
               ((if engagedUsers reactions = [] then pr.Reviewers
                 else engagedUsers reactions).map mention) ", " ++ "! ") ++
             "This PR is awaiting your review.") pr.MessageTS :: logs, Flow.next) ∧
      postedTexts logs = [] := by
  obtain ⟨logs, hl, hp⟩ := postedTexts_postReminder slack token pr
    (reminderText setup (timeSince now pr.CreatedAt) pr (directMentions pr reactions))
  refine ⟨logs, ?_, hp⟩
  rw [remindPR_direct setup db slack now pr token reactions h1 h2 htok hre, hl,
    directMentions_eq, reminderText_direct _ _ _ _ h2]
  rfl

/-- The two examples of C2 on `exampleDB` (reviewers A and B) one day after creation:
without reaction the reminder greets A and B; when C attached "eyes" it greets C only. -/
theorem engagement_fallback_witness :
    (createProdSetup.startReminder ≤ timeSince (24 * hour) examplePending.CreatedAt ∧
      timeSince (24 * hour) examplePending.CreatedAt < createProdSetup.channelReminder ∧
      getWorkspaceToken exampleDB examplePending.TeamId = .ok "xoxb-1" ∧
      eyesSlack.getReactions "xoxb-1" examplePending.ChannelID examplePending.MessageTS =
        .ok [{ Name := "thumbsup", Count := 1, Users := ["D"] },
             { Name := "eyes", Count := 1, Users := ["C"] }]) ∧
    (∃ logs,
      remindPR createProdSetup exampleDB quietSlack (24 * hour) examplePending =
        (Event.post "xoxb-1" "C1"
          "🔔 *Reminder:* PR needs review\n<https://example.com/pr/1|Open PR>\nHey <@A>, <@B>! This PR is awaiting your review."
          "1700000000.000100" :: logs, Flow.next) ∧
      postedTexts logs = []) ∧
    (∃ logs,
      remindPR createProdSetup exampleDB eyesSlack (24 * hour) examplePending =
        (Event.post "xoxb-1" "C1"
          "🔔 *Reminder:* PR needs review\n<https://example.com/pr/1|Open PR>\nHey <@C>! This PR is awaiting your review."
          "1700000000.000100" :: logs, Flow.next) ∧
      postedTexts logs = []) :=
  ⟨⟨by decide, by decide, by decide, by decide⟩,
    engagement_fallback createProdSetup exampleDB quietSlack (24 * hour) examplePending
      "xoxb-1" [] (by decide) (by decide) (by decide) (by decide),
    engagement_fallback createProdSetup exampleDB eyesSlack (24 * hour) examplePending
      "xoxb-1" [{ Name := "thumbsup", Count := 1, Users := ["D"] },
                { Name := "eyes", Count := 1, Users := ["C"] }]
      (by decide) (by decide) (by decide) (by decide)⟩

/-! ## Approval (C3, C5, C7) -/

/-- C3, counterexample.  The review of `approvedDB` was approved by "U1" at time 100; a
later approval by "U2" at time 200 succeeds and replaces both `approved_by` and
`approved_at`, so re-approval is not a no-op. -/
theorem reapproval_overwrites :
    approvedDB.pr_reviews.map (fun r => (r.status, r.approved_by, r.approved_at)) =
      [("approved", some "U1", some 100)] ∧
    (updatePRStatus 200 approvedDB "1700000000.000100" "approved" "U2").toOption.map
        (fun db => db.pr_reviews.map (fun r => (r.status, r.approved_by, r.approved_at))) =
      some [("approved", some "U2", some 200)] := by
  decide

/-- C3, as the code has it.  `updatePRStatus(messageTS, "approved", a2)` run when
`CURRENT_TIMESTAMP` is `t2` always succeeds, keeps the number and order of the rows, and
every row with that `message_ts`, whatever its former status, approver and approval time,
ends with status "approved", `approved_by = a2` and `approved_at = t2`, its other
columns unchanged; rows with another `message_ts` are unchanged.  The reaction handler
stores exactly this database for a "white_check_mark" reaction. -/
theorem reapproval_takes_latest
    (t2 : Int) (db : DB) (messageTS a2 : String) :
    ∃ db2, updatePRStatus t2 db messageTS "approved" a2 = .ok db2 ∧
      db2.pr_reviews.length = db.pr_reviews.length ∧
      (∀ (i : Nat) (r : Row), db.pr_reviews[i]? = some r →
        (r.message_ts = messageTS →
          db2.pr_reviews[i]? =
            some { r with status := "approved", approved_at := some t2, approved_by := some a2 }) ∧
        (r.message_ts ≠ messageTS → db2.pr_reviews[i]? = some r)) ∧
      (∀ (slack : Slack) (api channel user realName : String),
        (handleReaction t2 db slack api
          { User := user, Reaction := "white_check_mark", ItemChannel := channel,
            ItemTimestamp := messageTS }
          { ID := a2, RealName := realName }).1 = db2) := by
  refine ⟨_, rfl, by simp, ?_, ?_⟩
  · intro i r hr
    constructor
    · intro hk
      simp [List.getElem?_map, hr, updateStatusRow, hk]
    · intro hk
      simp [List.getElem?_map, hr, updateStatusRow, hk]
  · intro slack api channel user realName
    simp [handleReaction, updatePRStatus]

/-- The UPDATE of `updatePRStatus` keeps a row complete. -/
theorem approvalComplete_updateStatusRow (t : Int) (messageTS status approvedBy : String)
    (r : Row) (h : approvalComplete r) :
    approvalComplete (updateStatusRow t messageTS status approvedBy r) := by
  unfold updateStatusRow
  by_cases hk : r.message_ts = messageTS
  · by_cases hs : status = "approved" <;> simp [hk, hs, approvalComplete]
  · simpa [hk] using h

/-- The UPDATE of `addReviewer` keeps a row complete. -/
theorem approvalComplete_setReviewersRow (messageTS newReviewersStr : String)
    (r : Row) (h : approvalComplete r) :
    approvalComplete (setReviewersRow messageTS newReviewersStr r) := by
  unfold setReviewersRow
  by_cases hk : r.message_ts = messageTS
  · simpa [hk, approvalComplete] using h
  · simpa [hk] using h

/-- One successful call keeps every row complete. -/
theorem approvalComplete_applyOp (db db1 : DB) (op : StoreOp)
    (h : ∀ r ∈ db.pr_reviews, approvalComplete r) (hop : applyOp db op = .ok db1) :
    ∀ r ∈ db1.pr_reviews, approvalComplete r := by
  cases op with
  | store t pr =>
    simp only [applyOp, storePRReview, Except.ok.injEq] at hop
    subst hop
    intro r hr
    simp only [List.mem_append, List.mem_singleton] at hr
    rcases hr with hr | rfl
    · exact h r hr
    · simp [approvalComplete]
  | addReviewer messageTS reviewerID =>
    simp only [applyOp, addReviewer] at hop
    split at hop
    · exact absurd hop (by simp)
    · split at hop
      · simp only [Except.ok.injEq] at hop
        subst hop
        exact h
      · simp only [Except.ok.injEq] at hop
        subst hop
        intro r hr
        simp only [List.mem_map] at hr
        obtain ⟨r0, hr0, rfl⟩ := hr
        exact approvalComplete_setReviewersRow _ _ _ (h r0 hr0)
  | updateStatus t messageTS status approvedBy =>
    simp only [applyOp, updatePRStatus, Except.ok.injEq] at hop
    subst hop
    intro r hr
    simp only [List.mem_map] at hr
    obtain ⟨r0, hr0, rfl⟩ := hr
    exact approvalComplete_updateStatusRow _ _ _ _ _ (h r0 hr0)

/-- A sequence of calls keeps every row complete. -/
theorem approvalComplete_runOps (ops : List StoreOp) (db : DB)
    (h : ∀ r ∈ db.pr_reviews, approvalComplete r) :
    ∀ r ∈ (runOps db ops).pr_reviews, approvalComplete r := by
  induction ops generalizing db with
  | nil => exact h
  | cons op ops ih =>
    unfold runOps
    cases hop : applyOp db op with
    | error err => exact ih db h
    | ok db1 => exact ih db1 (approvalComplete_applyOp db db1 op h hop)

/-- C5. Approval completeness is an invariant of the store.  From any database whose
table `pr_reviews` is empty, after any sequence of `storePRReview`, `addReviewer` and
`updatePRStatus` calls with any arguments (any status string included), every row has
status "approved" if and only if `approved_at` and `approved_by` are both present, and
has both absent when its status is not "approved". -/
theorem approval_completeness (db0 : DB) (h0 : db0.pr_reviews = []) (ops : List StoreOp) :
    ∀ r ∈ (runOps db0 ops).pr_reviews,
      (r.status = "approved" ↔ (r.approved_at.isSome = true ∧ r.approved_by.isSome = true)) ∧
      (r.status ≠ "approved" → r.approved_at = none ∧ r.approved_by = none) :=
  approvalComplete_runOps ops db0 (by simp [h0])

/-- C5 at a concrete run: a review is stored, a reviewer joins, the review is approved,
then its status is set to "rejected" and another review is stored; both rows of the
result are complete. -/
theorem approval_completeness_witness :
    workspaceDB.pr_reviews = [] ∧
    ∀ r ∈ (runOps workspaceDB
        [StoreOp.store 0 exampleReview,
         StoreOp.addReviewer "1700000000.000100" "C",
         StoreOp.updateStatus 100 "1700000000.000100" "approved" "U1",
         StoreOp.updateStatus 200 "1700000000.000100" "rejected" "U2",
         StoreOp.store 300 exampleReview]).pr_reviews,
      (r.status = "approved" ↔ (r.approved_at.isSome = true ∧ r.approved_by.isSome = true)) ∧
      (r.status ≠ "approved" → r.approved_at = none ∧ r.approved_by = none) :=
  ⟨by decide, approval_completeness workspaceDB (by decide) _⟩

/-- C7, counterexample.  No row of `exampleDB` has `message_ts` "1600000000.000000",
and approving that key returns no error: the call succeeds and the database is the same. -/
theorem approve_missing_succeeds :
    exampleDB.pr_reviews.all (fun r => r.message_ts ≠ "1600000000.000000") = true ∧
    updatePRStatus 100 exampleDB "1600000000.000000" "approved" "U1" = .ok exampleDB := by
  decide

/-- C7, as the code has it.  For every database and every key that no row has as
`message_ts`, `updatePRStatus` with any status and approver returns success (an UPDATE
that matches no row is not an error) and leaves the database, hence every existing
review, unchanged. -/
theorem approve_missing_is_silent (t : Int) (db : DB) (messageTS status approvedBy : String)
    (h : ∀ r ∈ db.pr_reviews, r.message_ts ≠ messageTS) :
    updatePRStatus t db messageTS status approvedBy = .ok db := by
  have hmap : db.pr_reviews.map (updateStatusRow t messageTS status approvedBy) =
      db.pr_reviews := by
    conv_rhs => rw [← List.map_id db.pr_reviews]
    apply List.map_congr_left
    intro r hr
    simp [updateStatusRow, h r hr]
  simp [updatePRStatus, hmap]

/-- C7 at a concrete input: approving an unknown key on `exampleDB`. -/
theorem approve_missing_is_silent_witness :
    (∀ r ∈ exampleDB.pr_reviews, r.message_ts ≠ "1600000000.000000") ∧
    updatePRStatus 100 exampleDB "1600000000.000000" "approved" "U1" = .ok exampleDB :=
  ⟨by decide, approve_missing_is_silent 100 exampleDB "1600000000.000000" "approved" "U1"
    (by decide)⟩

/-! ## Reviewer addition (C4) -/

/-- The new reviewers string of `addReviewer` is the old one, a comma and the new id. -/
theorem stringsJoin_split_append (s u : String) :
    stringsJoin (stringsSplit s comma ++ [u]) "," = s ++ "," ++ u := by
  rw [stringsJoin_append_singleton _ _ _ (stringsSplit_ne_nil s comma), stringsJoin_stringsSplit]

/-- Go `addReviewer` on a database where the key has a row. -/
theorem addReviewer_of_find (db : DB) (messageTS reviewerID : String) (row : Row)
    (h : db.pr_reviews.find? (fun r => r.message_ts = messageTS) = some row) :
    addReviewer db messageTS reviewerID =
      if reviewerID ∈ stringsSplit row.reviewers comma then .ok db
      else .ok { db with
        pr_reviews := db.pr_reviews.map
          (setReviewersRow messageTS (row.reviewers ++ "," ++ reviewerID)) } := by
  simp only [addReviewer, h, stringsJoin_split_append]

/-- After the UPDATE of `addReviewer` the first row of the key carries the new string. -/
theorem find_setReviewers (rows : List Row) (messageTS newReviewersStr : String) (row : Row)
    (h : rows.find? (fun r => r.message_ts = messageTS) = some row) :
    (rows.map (setReviewersRow messageTS newReviewersStr)).find?
        (fun r => r.message_ts = messageTS) =
      some { row with reviewers := newReviewersStr } := by
  induction rows with
  | nil => simp at h
  | cons r rs ih =>
    by_cases hk : r.message_ts = messageTS
    · simp only [List.find?_cons, hk, decide_True, Option.some.injEq] at h
      subst h
      simp [List.find?_cons, setReviewersRow, hk]
    · simp only [List.find?_cons, hk, decide_False] at h
      simp [List.find?_cons, setReviewersRow, hk, ih h]

/-- A row has the same reviewer set as itself. -/
theorem sameReviewerSet_refl (r : Row) : sameReviewerSet r r :=
  ⟨rfl, fun _ => Iff.rfl⟩

/-- A table has row by row the same reviewer sets as itself. -/
theorem forall₂_sameReviewerSet_refl (rows : List Row) :
    List.Forall₂ sameReviewerSet rows rows :=
  List.forall₂_same.mpr (fun r _ => sameReviewerSet_refl r)

/-- C4, counterexample.  On `exampleDB` (reviewers "A,B") the reviewer id "X,Y" is added
a second time by the second call: one call stores the list A, B, X, Y and two calls store
A, B, X, Y, X, Y. -/
theorem addReviewer_comma_duplicates :
    (addReviewer exampleDB "1700000000.000100" "X,Y").toOption.map
        (fun db => db.pr_reviews.map reviewersOf) = some [["A", "B", "X", "Y"]] ∧
    ((addReviewer exampleDB "1700000000.000100" "X,Y").toOption.bind
        (fun db => (addReviewer db "1700000000.000100" "X,Y").toOption)).map
        (fun db => db.pr_reviews.map reviewersOf) = some [["A", "B", "X", "Y", "X", "Y"]] := by
  decide

/-- C4, as the code has it.  For every database with a review for the key and every
user id, `addReviewer` succeeds twice in a row; the rows after the second call are the
rows after the first with the same members in their comma-split reviewer lists; and when
the user id contains no comma the second call changes nothing at all (no duplicate). -/
theorem addReviewer_twice (db : DB) (messageTS reviewerID : String)
    (h : ∃ r ∈ db.pr_reviews, r.message_ts = messageTS) :
    ∃ db1 db2,
      addReviewer db messageTS reviewerID = .ok db1 ∧
      addReviewer db1 messageTS reviewerID = .ok db2 ∧
      { db2 with pr_reviews := db1.pr_reviews } = db1 ∧
      List.Forall₂ sameReviewerSet db1.pr_reviews db2.pr_reviews ∧
      (comma ∉ reviewerID.data → db2 = db1) := by
  obtain ⟨r, hr, hk⟩ := h
  cases hf : db.pr_reviews.find? (fun r => r.message_ts = messageTS) with
  | none =>
    have := List.find?_eq_none.mp hf r hr
    simp [hk] at this
  | some row =>
    by_cases hin : reviewerID ∈ stringsSplit row.reviewers comma
    · have h1 : addReviewer db messageTS reviewerID = .ok db := by
        rw [addReviewer_of_find db messageTS reviewerID row hf, if_pos hin]
      exact ⟨db, db, h1, h1, rfl, forall₂_sameReviewerSet_refl _, fun _ => rfl⟩
    · have h1 := addReviewer_of_find db messageTS reviewerID row hf
      rw [if_neg hin] at h1
      have hf1 := find_setReviewers db.pr_reviews messageTS
        (row.reviewers ++ "," ++ reviewerID) row hf
      have h2 := addReviewer_of_find
        ⟨db.pr_reviews.map (setReviewersRow messageTS (row.reviewers ++ "," ++ reviewerID)),
          db.pr_reviews_seq, db.workspaces, db.workspaces_seq⟩
        messageTS reviewerID _ hf1
      simp only [stringsSplit_append_comma] at h2
      by_cases hin2 : reviewerID ∈ stringsSplit row.reviewers comma ++ stringsSplit reviewerID comma
      · rw [if_pos hin2] at h2
        exact ⟨_, _, h1, h2, rfl, forall₂_sameReviewerSet_refl _, fun _ => rfl⟩
      · rw [if_neg hin2] at h2
        refine ⟨_, _, h1, h2, rfl, ?_, ?_⟩
        · simp only [List.forall₂_map_right_iff, List.forall₂_map_left_iff]
          apply List.forall₂_same.mpr
          intro r0 _
          by_cases hk0 : r0.message_ts = messageTS
          · refine ⟨by simp [setReviewersRow, hk0], ?_⟩
            intro u
            simp only [reviewersOf, setReviewersRow, hk0, if_true, stringsSplit_append_comma,
              List.mem_append]
            tauto
          · simp only [setReviewersRow, hk0, if_false]
            exact sameReviewerSet_refl r0
        · intro hc
          exact absurd (by simp [stringsSplit_of_no_comma _ hc]) hin2

/-- C4 at a concrete input: user "C" reacts twice to the review of `exampleDB`. -/
theorem addReviewer_twice_witness :
    (∃ r ∈ exampleDB.pr_reviews, r.message_ts = "1700000000.000100") ∧
    ∃ db1 db2,
      addReviewer exampleDB "1700000000.000100" "C" = .ok db1 ∧
      addReviewer db1 "1700000000.000100" "C" = .ok db2 ∧
      { db2 with pr_reviews := db1.pr_reviews } = db1 ∧
      List.Forall₂ sameReviewerSet db1.pr_reviews db2.pr_reviews ∧
      (comma ∉ "C".data → db2 = db1) :=
  ⟨by decide, addReviewer_twice exampleDB "1700000000.000100" "C" (by decide)⟩

/-! ## Failures in the tick (C6, C9) and the unassigned review (C10) -/

/-- C6, the code at the failing input.  In `twoTeamsDB` the review of team "T0" (no
workspace token) precedes the review of team "T1", and both are one day old: the tick
logs the failed token lookup and returns, so no reminder is posted for the second
review, although the same tick on `exampleDB`, which holds the second review alone,
posts its reminder. -/
theorem missing_token_aborts_batch :
    (getPendingPRs twoTeamsDB).toOption.map (fun prs => prs.map (fun pr => pr.TeamId)) =
      some ["T0", "T1"] ∧
    reminderTick createProdSetup twoTeamsDB quietSlack (24 * hour) =
      [Event.log "Running reminder system",
       Event.log "Error getting workspace token: sql: no rows in result set",
       Event.log "Error getting API in reminder system: sql: no rows in result set"] ∧
    postedTexts (reminderTick createProdSetup exampleDB quietSlack (24 * hour)) =
      ["🔔 *Reminder:* PR needs review\n<https://example.com/pr/1|Open PR>\nHey <@A>, <@B>! This PR is awaiting your review."] := by
  decide

/-- C9, counterexample.  The review of `exampleDB` is one day old with the production
thresholds, its token lookup succeeds and `GetReactions` fails: the tick logs the
failure and posts nothing, so no reminder reaches the assigned reviewers A and B. -/
theorem reactions_failure_posts_nothing :
    (createProdSetup.startReminder ≤ timeSince (24 * hour) examplePending.CreatedAt ∧
      timeSince (24 * hour) examplePending.CreatedAt < createProdSetup.channelReminder) ∧
    reminderTick createProdSetup exampleDB failingSlack (24 * hour) =
      [Event.log "Running reminder system",
       Event.log "Error getting reactions: ratelimited"] ∧
    postedTexts (reminderTick createProdSetup exampleDB failingSlack (24 * hour)) = [] := by
  decide

/-- C9, as the code has it.  For every pending review with `startReminder ≤ elapsed <
channelReminder` whose token lookup succeeds, if `GetReactions` returns an error then
the iteration only logs the failure: no reminder is posted for that review in this tick,
and the loop continues with the remaining reviews. -/
theorem reactions_failure_skips_review
    (setup : ReminderSetup) (db : DB) (slack : Slack) (now : Int) (pr : PRReview)
    (token err : String) (rest : List PRReview)
    (h1 : setup.startReminder ≤ timeSince now pr.CreatedAt)
    (h2 : timeSince now pr.CreatedAt < setup.channelReminder)
    (htok : getWorkspaceToken db pr.TeamId = .ok token)
    (hre : slack.getReactions token pr.ChannelID pr.MessageTS = .error err) :
    remindPR setup db slack now pr =
      ([Event.log ("Error getting reactions: " ++ err)], Flow.next) ∧
    postedTexts (remindPR setup db slack now pr).1 = [] ∧
    remindLoop setup db slack now (pr :: rest) =
      Event.log ("Error getting reactions: " ++ err) :: remindLoop setup db slack now rest := by
  have h := remindPR_reactions_error setup db slack now pr token err h1 h2 htok hre
  refine ⟨h, by rw [h]; rfl, ?_⟩
  rw [remindLoop_cons_next _ _ _ _ _ _ (by rw [h]), h]
  rfl

/-- C9 at a concrete input: the review of `exampleDB`, one day old, when `GetReactions`
fails. -/
theorem reactions_failure_skips_review_witness :
    (createProdSetup.startReminder ≤ timeSince (24 * hour) examplePending.CreatedAt ∧
      timeSince (24 * hour) examplePending.CreatedAt < createProdSetup.channelReminder ∧
      getWorkspaceToken exampleDB examplePending.TeamId = .ok "xoxb-1" ∧
      failingSlack.getReactions "xoxb-1" examplePending.ChannelID examplePending.MessageTS =
        .error "ratelimited") ∧
    remindPR createProdSetup exampleDB failingSlack (24 * hour) examplePending =
      ([Event.log ("Error getting reactions: " ++ "ratelimited")], Flow.next) :=
  ⟨⟨by decide, by decide, by decide, by decide⟩,
    (reactions_failure_skips_review createProdSetup exampleDB failingSlack (24 * hour)
      examplePending "xoxb-1" "ratelimited" [] (by decide) (by decide) (by decide)
      (by decide)).1⟩

/-- C10, the code at the failing input.  A review stored with an empty reviewer list is
stored with the reviewers string "" and read back with the one reviewer "", so one day
later, without any reaction, the reminder is not the bare header: it greets the empty
mention `<@>`. -/
theorem unassigned_review_greets_empty_mention :
    unassignedDB.pr_reviews.map (fun r => r.reviewers) = [""] ∧
    (getPendingPRs unassignedDB).toOption.map (fun prs => prs.map (fun pr => pr.Reviewers)) =
      some [[""]] ∧
    postedTexts (reminderTick createProdSetup unassignedDB quietSlack (24 * hour)) =
      ["🔔 *Reminder:* PR needs review\n<https://example.com/pr/1|Open PR>\nHey <@>! This PR is awaiting your review."] ∧
    reminderHeader exampleReview =
      "🔔 *Reminder:* PR needs review\n<https://example.com/pr/1|Open PR>\n" := by
  decide

/-! ## Uniqueness of the correlation key (C8) -/

/-- C8, counterexample.  `exampleDB` holds one review with `message_ts`
"1700000000.000100"; storing another review with the same `MessageTS` returns no error
and the table then holds two rows with that `message_ts`. -/
theorem duplicate_key_is_stored :
    countKey exampleDB "1700000000.000100" = 1 ∧
    (storePRReview 50 exampleDB { exampleReview with PRUrl := "https://example.com/pr/2" }
      ).toOption.map (fun db => countKey db "1700000000.000100") = some 2 := by
  decide

/-- C8, as the code has it.  For every database that holds a review with `message_ts =
pr.MessageTS`, `storePRReview` of `pr` succeeds: the new row is appended after the
existing rows, which are not mutated, and the number of rows with that `message_ts`
grows by one, to two at least. -/
theorem duplicate_key_appends (t : Int) (db : DB) (pr : PRReview)
    (h : ∃ r ∈ db.pr_reviews, r.message_ts = pr.MessageTS) :
    ∃ db1 row,
      storePRReview t db pr = .ok db1 ∧
      db1.pr_reviews = db.pr_reviews ++ [row] ∧
      row.message_ts = pr.MessageTS ∧
      countKey db1 pr.MessageTS = countKey db pr.MessageTS + 1 ∧
      2 ≤ countKey db1 pr.MessageTS := by
  have hpos : 0 < countKey db pr.MessageTS := by
    obtain ⟨r, hr, hk⟩ := h
    exact List.countP_pos_iff.mpr ⟨r, hr, by simp [hk]⟩
  have hcount : countKey
      { db with
        pr_reviews := db.pr_reviews ++
          [{ id := db.pr_reviews_seq + 1, pr_url := pr.PRUrl, description := pr.Description,
             channel_id := pr.ChannelID, message_ts := pr.MessageTS,
             reviewers := stringsJoin pr.Reviewers ",", status := "pending",
             team_id := pr.TeamId, created_at := t, approved_at := none, approved_by := none }]
        pr_reviews_seq := db.pr_reviews_seq + 1 } pr.MessageTS =
      countKey db pr.MessageTS + 1 := by
    simp [countKey, List.countP_append]
  refine ⟨_, _, rfl, rfl, rfl, hcount, ?_⟩
  rw [hcount]
  omega

/-- C8 at a concrete input: a second review with the key of the review of `exampleDB`. -/
theorem duplicate_key_appends_witness :
    (∃ r ∈ exampleDB.pr_reviews, r.message_ts = exampleReview.MessageTS) ∧
    ∃ db1 row,
      storePRReview 50 exampleDB exampleReview = .ok db1 ∧
      db1.pr_reviews = exampleDB.pr_reviews ++ [row] ∧
      row.message_ts = exampleReview.MessageTS ∧
      countKey db1 exampleReview.MessageTS = countKey exampleDB exampleReview.MessageTS + 1 ∧
      2 ≤ countKey db1 exampleReview.MessageTS :=
  ⟨by decide, duplicate_key_appends 50 exampleDB exampleReview (by decide)⟩

/-! ## The stored reviewer list (C11) -/

/-- Joining a non-empty list of comma-free strings with commas and splitting the result
on the comma gives the list back. -/
theorem stringsSplit_stringsJoin (xs : List String) (hne : xs ≠ [])
    (hx : ∀ x ∈ xs, comma ∉ x.data) :
    stringsSplit (stringsJoin xs ",") comma = xs := by
  induction xs with
  | nil => exact absurd rfl hne
  | cons e rest ih =>
    have he : comma ∉ e.data := hx e (List.mem_cons_self _ _)
    cases rest with
    | nil =>
      have : stringsJoin [e] "," = e := by
        apply String.ext
        simp [stringsJoin, joinRest, String.data_append]
      rw [this, stringsSplit_of_no_comma e he]
    | cons r rs =>
      have hrest := ih (by simp) (fun x hxm => hx x (List.mem_cons_of_mem _ hxm))
      have : stringsJoin (e :: r :: rs) "," = e ++ "," ++ stringsJoin (r :: rs) "," := by
        simp [stringsJoin, joinRest, String.append_assoc]
      rw [this, stringsSplit_append_comma, hrest, stringsSplit_of_no_comma e he]
      rfl

/-- The comma-split of the comma-join of a list is the list exactly when the list is
non-empty and none of its strings contains a comma. -/
theorem stringsSplit_stringsJoin_iff (xs : List String) :
    stringsSplit (stringsJoin xs ",") comma = xs ↔ (xs ≠ [] ∧ ∀ x ∈ xs, comma ∉ x.data) := by
  constructor
  · intro h
    refine ⟨?_, ?_⟩
    · intro hnil
      rw [hnil] at h
      exact stringsSplit_ne_nil _ _ h
    · intro x hxm
      rw [← h] at hxm
      exact no_comma_of_mem_stringsSplit _ x hxm
  · rintro ⟨hne, hx⟩
    exact stringsSplit_stringsJoin xs hne hx

/-- C11. Reviewer-list storage round trip.  `storePRReview` of a review with the reviewer
ids `pr.Reviewers` always succeeds and appends one pending row whose `reviewers` column
is `strings.Join(pr.Reviewers, ",")`; `getPendingPRs` then reads that row back last, with
`Reviewers = strings.Split` of the stored string on ",".  The list read back equals
`pr.Reviewers` if and only if `pr.Reviewers` is non-empty and none of its ids contains a
comma; the empty list is read back as the one-element list `[""]`. -/
theorem reviewer_list_round_trip (t : Int) (db : DB) (pr : PRReview) :
    ∃ db1 row prs,
      storePRReview t db pr = .ok db1 ∧
      db1.pr_reviews = db.pr_reviews ++ [row] ∧
      row.reviewers = stringsJoin pr.Reviewers "," ∧
      getPendingPRs db = .ok prs ∧
      getPendingPRs db1 = .ok (prs ++ [scanPending row]) ∧
      (scanPending row).Reviewers = stringsSplit (stringsJoin pr.Reviewers ",") comma ∧
      ((scanPending row).Reviewers = pr.Reviewers ↔
        (pr.Reviewers ≠ [] ∧ ∀ id ∈ pr.Reviewers, comma ∉ id.data)) ∧
      (pr.Reviewers = [] → (scanPending row).Reviewers = [""]) := by
  refine ⟨_, _, _, rfl, rfl, rfl, rfl, ?_, rfl, ?_, ?_⟩
  · simp [getPendingPRs, List.filter_append]
  · exact stringsSplit_stringsJoin_iff pr.Reviewers
  · intro h
    simp only [scanPending, h]
    rfl

/-- The round trip on concrete lists: A, B comes back unchanged; the empty list comes
back as one empty id; the single id "X,Y" comes back as the two ids X and Y. -/
theorem reviewer_list_round_trip_examples :
    stringsSplit (stringsJoin ["A", "B"] ",") comma = ["A", "B"] ∧
    stringsSplit (stringsJoin [] ",") comma = [""] ∧
    stringsSplit (stringsJoin ["X,Y"] ",") comma = ["X", "Y"] ∧
    (getPendingPRs unassignedDB).toOption.map (fun prs => prs.map (fun p => p.Reviewers)) =
      some [[""]] := by
  decide

end PRReminder
